import Mathlib

/-!
# Verification of the Vibe-Automation core against its specification

Shallow embedding of the repository's core routines:

* `parseBenefitToWeeklyHours` and `chartData` from the visualization
  component (benefit-string parser and chart ranking),
* `truncateLabel` from the same component (label truncation),
* `traverse` / `generateDirectorySummary` / `pickAndSummarizeDirectory`
  from `app.component.ts` (directory summarizer),
* `generateSuggestions` from `gemini.service.ts` (response adapter).

JavaScript strings are modelled as Lean `String`s, operated on through
their `List Char` of code points (an idealization of UTF-16 code units;
all behaviour relevant here is code-point based).  JavaScript `number`s
produced by the parser are modelled as `ℚ` (the concrete constants of
the spec — products by 5, quotients by 4 and 60 — are exact).
Platform collaborators (the directory picker, `JSON.parse`) are passed
in as explicit values or functions.  Exceptions are modelled with
`Except`.
-/

namespace VibeAutomation

/-! ## JavaScript string primitives -/

/-- The characters `String.prototype.trim` removes (ASCII whitespace). -/
def isJsWhitespace (c : Char) : Bool :=
  c = ' ' || c = '\t' || c = '\n' || c = '\r' || c = '\x0b' || c = '\x0c'

/-- `trim` on a list of characters: whitespace removed from both ends. -/
def jsTrimList (l : List Char) : List Char :=
  ((l.dropWhile isJsWhitespace).reverse.dropWhile isJsWhitespace).reverse

/-- JavaScript `String.prototype.trim` (removes leading AND trailing whitespace). -/
def jsTrim (s : String) : String :=
  String.mk (jsTrimList s.data)

/-- JavaScript `String.prototype.includes`: `containsSub needle hay` is true
iff `needle` occurs contiguously inside `hay`. -/
def containsSub (needle : List Char) : List Char → Bool
  | [] => needle.isEmpty
  | c :: rest => needle.isPrefixOf (c :: rest) || containsSub needle rest

/-- JavaScript `String.prototype.endsWith`. -/
def jsEndsWith (s suf : String) : Bool :=
  List.isSuffixOf suf.data s.data

/-- JavaScript `String.prototype.toLowerCase`, viewed as a list of characters
(ASCII case mapping; the keywords compared against are all ASCII). -/
def lowered (s : String) : List Char :=
  s.data.map Char.toLower

/-! ## BenefitParser
(`parseBenefitToWeeklyHours` in the visualization component) -/

/-- Splits off the leading run of decimal digits. -/
def digitRun : List Char → List Char × List Char
  | [] => ([], [])
  | c :: rest =>
    if c.isDigit then
      let r := digitRun rest
      (c :: r.1, r.2)
    else ([], c :: rest)

/-- Value of a list of decimal digits. -/
def digitsToNat (ds : List Char) : Nat :=
  ds.foldl (fun acc c => acc * 10 + (c.toNat - 48)) 0

/-- First match of the regех pattern of digits with an optional fractional
part (`\d+(\.\d+)?` in the source), as the rational number `parseFloat`
extracts from it: scan to the first digit, take the maximal digit run, and
a following dot with at least one digit contributes the fractional part. -/
def firstNumberFrom : List Char → Option ℚ
  | [] => none
  | c :: rest =>
    if c.isDigit then
      match (digitRun (c :: rest)).2 with
      | '.' :: rest2 =>
        if (digitRun rest2).1 = [] then
          some ((digitsToNat (digitRun (c :: rest)).1 : ℚ))
        else
          some ((digitsToNat (digitRun (c :: rest)).1 : ℚ) +
            (digitsToNat (digitRun rest2).1 : ℚ) /
              ((10 : ℚ) ^ (digitRun rest2).1.length))
      | _ => some ((digitsToNat (digitRun (c :: rest)).1 : ℚ))
    else firstNumberFrom rest

/-- `text.includes('hour') || text.includes('hr')`. -/
def hasHourUnit (t : List Char) : Bool :=
  containsSub ("hour").data t || containsSub ("hr").data t

/-- `text.includes('minute') || text.includes('min')`. -/
def hasMinuteUnit (t : List Char) : Bool :=
  containsSub ("minute").data t || containsSub ("min").data t

/-- `text.includes('per day') || text.includes('daily')`. -/
def hasDayQualifier (t : List Char) : Bool :=
  containsSub ("per day").data t || containsSub ("daily").data t

/-- `text.includes('per month') || text.includes('monthly')`. -/
def hasMonthQualifier (t : List Char) : Bool :=
  containsSub ("per month").data t || containsSub ("monthly").data t

/-- `parseBenefitToWeeklyHours` from the visualization component: extract the
first number from the raw benefit string, then dispatch on unit keywords and
period qualifiers found in the lowercased text.  Total by construction (the
source never raises here either). -/
def parseBenefitToWeeklyHours (benefit : String) : ℚ :=
  let text := lowered benefit
  match firstNumberFrom benefit.data with
  | none => 0
  | some value =>
    if hasHourUnit text then
      if hasDayQualifier text then value * 5
      else if hasMonthQualifier text then value / 4
      else value
    else if hasMinuteUnit text then
      let hours := value / 60
      if hasDayQualifier text then hours * 5
      else if hasMonthQualifier text then hours / 4
      else hours
    else 0

/-- The number the regex extracts is never negative. -/
theorem firstNumberFrom_nonneg (l : List Char) (q : ℚ)
    (h : firstNumberFrom l = some q) : 0 ≤ q := by
  induction l with
  | nil => simp [firstNumberFrom] at h
  | cons c rest ih =>
    rw [firstNumberFrom] at h
    split at h
    · split at h
      · split at h
        · injection h with h
          rw [← h]
          positivity
        · injection h with h
          rw [← h]
          positivity
      · injection h with h
        rw [← h]
        positivity
    · exact ih h

/-- C2: for a benefit string whose first decimal-number match is `n`, the
parser returns `n`, `n * 5` or `n / 4` on hour-unit strings according to the
period qualifier (the day check taking precedence over the month check), and
the same with `n` first divided by 60 on minute-unit strings. -/
theorem parseWeeklyHours_units (benefit : String) (n : ℚ)
    (hnum : firstNumberFrom benefit.data = some n) :
    (hasHourUnit (lowered benefit) = true →
      parseBenefitToWeeklyHours benefit =
        (if hasDayQualifier (lowered benefit) then n * 5
         else if hasMonthQualifier (lowered benefit) then n / 4
         else n)) ∧
    (hasHourUnit (lowered benefit) = false →
      hasMinuteUnit (lowered benefit) = true →
      parseBenefitToWeeklyHours benefit =
        (if hasDayQualifier (lowered benefit) then n / 60 * 5
         else if hasMonthQualifier (lowered benefit) then n / 60 / 4
         else n / 60)) := by
  constructor
  · intro hh
    simp [parseBenefitToWeeklyHours, hnum, hh]
  · intro hh hm
    simp [parseBenefitToWeeklyHours, hnum, hh, hm]

/-- Witness for C2 on the spec's three examples: 2 hours per day give 10
weekly hours, 8 hours per month give 2, 30 minutes daily give 5/2. -/
theorem parseWeeklyHours_units_witness :
    parseBenefitToWeeklyHours ("Saves 2 hours per day") = 10 ∧
    parseBenefitToWeeklyHours ("Saves 8 hours per month") = 2 ∧
    parseBenefitToWeeklyHours ("Saves 30 minutes daily") = 5 / 2 := by
  refine ⟨?_, ?_, ?_⟩
  · rw [(parseWeeklyHours_units ("Saves 2 hours per day") 2 (by decide)).1
      (by decide),
      if_pos (show hasDayQualifier (lowered ("Saves 2 hours per day")) = true
        by decide)]
    norm_num
  · rw [(parseWeeklyHours_units ("Saves 8 hours per month") 8 (by decide)).1
      (by decide),
      if_neg (show ¬ hasDayQualifier (lowered ("Saves 8 hours per month"))
          = true by decide),
      if_pos (show hasMonthQualifier (lowered ("Saves 8 hours per month"))
          = true by decide)]
    norm_num
  · rw [(parseWeeklyHours_units ("Saves 30 minutes daily") 30 (by decide)).2
      (by decide) (by decide),
      if_pos (show hasDayQualifier (lowered ("Saves 30 minutes daily")) = true
        by decide)]
    norm_num

/-- C6: the parser is total (it is a total function by construction) and
non-negative; it returns 0 when no number is found, and 0 when a number is
found but no unit keyword (hour, hr, minute, min) occurs. -/
theorem parseWeeklyHours_total_nonneg (benefit : String) :
    0 ≤ parseBenefitToWeeklyHours benefit ∧
    (firstNumberFrom benefit.data = none →
      parseBenefitToWeeklyHours benefit = 0) ∧
    (hasHourUnit (lowered benefit) = false →
      hasMinuteUnit (lowered benefit) = false →
      parseBenefitToWeeklyHours benefit = 0) := by
  refine ⟨?_, ?_, ?_⟩
  · unfold parseBenefitToWeeklyHours
    cases hn : firstNumberFrom benefit.data with
    | none => simp
    | some v =>
      have hv := firstNumberFrom_nonneg _ _ hn
      simp only []
      split_ifs <;> linarith
  · intro h
    simp [parseBenefitToWeeklyHours, h]
  · intro hh hm
    unfold parseBenefitToWeeklyHours
    cases hn : firstNumberFrom benefit.data with
    | none => simp
    | some v => simp [hh, hm]

/-- Witness for C6: a string with no number, and one with a number but no
unit keyword, both map to 0. -/
theorem parseWeeklyHours_total_nonneg_witness :
    parseBenefitToWeeklyHours ("no digits here") = 0 ∧
    parseBenefitToWeeklyHours ("7 widgets") = 0 := by
  constructor
  · exact (parseWeeklyHours_total_nonneg ("no digits here")).2.1 (by decide)
  · exact (parseWeeklyHours_total_nonneg ("7 widgets")).2.2 (by decide)
      (by decide)

/-! ## SuggestionRanker (`chartData` in the visualization component) -/

/-- A suggestion as returned by the AI collaborator
(`AutomationSuggestion` in `gemini.service.ts`). -/
structure AutomationSuggestion where
  area : String
  tool : String
  benefit : String
  steps : List String

/-- A chart-ready record (`ChartData` in the visualization component). -/
structure ChartData where
  area : String
  hoursSaved : ℚ
deriving DecidableEq

/-- The comparator `(a, b) => b.hoursSaved - a.hoursSaved` handed to
`Array.prototype.sort`, as the induced "a may be placed before b" Boolean
relation: the comparator result is non-positive iff
`b.hoursSaved ≤ a.hoursSaved`. -/
def chartCmp (a b : ChartData) : Bool :=
  decide (b.hoursSaved ≤ a.hoursSaved)

/-- The map and filter stages of `chartData`: parse each suggestion's
benefit, keep records with positive hoursSaved. -/
def chartRecords (l : List AutomationSuggestion) : List ChartData :=
  (l.map (fun s => ChartData.mk s.area (parseBenefitToWeeklyHours s.benefit))).filter
    (fun r => decide (0 < r.hoursSaved))

/-- `chartData` from the visualization component: null suggestions yield [],
otherwise map through the parser, filter to positive hours, and sort with
the descending comparator.  ECMAScript `Array.prototype.sort` is required to
be a stable sort consistent with the comparator, which `List.mergeSort`
models exactly. -/
def chartData (suggestions : Option (List AutomationSuggestion)) :
    List ChartData :=
  match suggestions with
  | none => []
  | some l => (chartRecords l).mergeSort chartCmp

theorem chartCmp_trans (a b c : ChartData) (h1 : chartCmp a b)
    (h2 : chartCmp b c) : chartCmp a c := by
  simp only [chartCmp, decide_eq_true_eq] at h1 h2 ⊢
  exact le_trans h2 h1

theorem chartCmp_total (a b : ChartData) : chartCmp a b || chartCmp b a := by
  simp only [chartCmp, Bool.or_eq_true, decide_eq_true_eq]
  exact le_total b.hoursSaved a.hoursSaved

/-- C4: the ranking is a permutation of the mapped-and-filtered records,
contains no record with hoursSaved ≤ 0, is sorted in descending order of
hoursSaved, keeps records of equal hoursSaved in their original relative
order, and maps empty input to empty output. -/
theorem chartData_spec (l : List AutomationSuggestion) :
    List.Perm (chartData (some l)) (chartRecords l) ∧
    (∀ r, r ∈ chartData (some l) → 0 < r.hoursSaved) ∧
    List.Pairwise (fun a b => b.hoursSaved ≤ a.hoursSaved)
      (chartData (some l)) ∧
    (∀ v : ℚ,
      (chartData (some l)).filter (fun r => decide (r.hoursSaved = v)) =
        (chartRecords l).filter (fun r => decide (r.hoursSaved = v))) ∧
    chartData (some []) = [] := by
  have hperm : List.Perm (chartData (some l)) (chartRecords l) :=
    List.mergeSort_perm (chartRecords l) chartCmp
  refine ⟨hperm, ?_, ?_, ?_, ?_⟩
  · intro r hr
    have hr2 : r ∈ chartRecords l := hperm.mem_iff.mp hr
    have := List.of_mem_filter hr2
    simpa using this
  · have hs := List.sorted_mergeSort
      (fun a b c => chartCmp_trans a b c) (fun a b => chartCmp_total a b)
      (chartRecords l)
    exact hs.imp (fun h => by simpa [chartCmp] using h)
  · intro v
    have hsub : List.Sublist ((chartRecords l).filter
        (fun r => decide (r.hoursSaved = v))) (chartRecords l) :=
      List.filter_sublist _
    have hmem : ∀ x ∈ (chartRecords l).filter
        (fun r => decide (r.hoursSaved = v)), x.hoursSaved = v := by
      intro x hx
      have := List.of_mem_filter hx
      simpa using this
    have hpw : ((chartRecords l).filter
        (fun r => decide (r.hoursSaved = v))).Pairwise
        (fun a b => chartCmp a b) := by
      apply List.pairwise_of_forall_mem_list
      intro a ha b hb
      simp only [chartCmp, decide_eq_true_eq, hmem a ha, hmem b hb]
      simp
    have hmerge := List.sublist_mergeSort
      (fun a b c => chartCmp_trans a b c) (fun a b => chartCmp_total a b)
      hpw hsub
    have hfil := List.Sublist.filter (fun r => decide (r.hoursSaved = v))
      hmerge
    have hid : ((chartRecords l).filter
        (fun r => decide (r.hoursSaved = v))).filter
        (fun r => decide (r.hoursSaved = v)) =
        (chartRecords l).filter (fun r => decide (r.hoursSaved = v)) := by
      apply List.filter_eq_self.mpr
      intro a ha
      simpa using hmem a ha
    rw [hid] at hfil
    have hlen : (((chartRecords l).mergeSort chartCmp).filter
        (fun r => decide (r.hoursSaved = v))).length =
        ((chartRecords l).filter
          (fun r => decide (r.hoursSaved = v))).length :=
      (List.Perm.filter _ (List.mergeSort_perm (chartRecords l)
        chartCmp)).length_eq
    exact (hfil.eq_of_length hlen.symm).symm
  · show ((chartRecords []).mergeSort chartCmp) = []
    rw [show chartRecords [] = [] from rfl]
    exact List.mergeSort_nil

/-! ## Chart label truncation (`truncateLabel` in the visualization
component; every call site passes `maxLength = 20`) -/

/-- `truncateLabel` from the visualization component: labels of length at
most `maxLength` are returned unchanged; longer ones are cut to the first
`maxLength` characters, passed through `trim` (which strips whitespace from
BOTH ends), and suffixed with an ellipsis. -/
def truncateLabel (label : String) (maxLength : Nat) : String :=
  if label.data.length ≤ maxLength then label
  else jsTrim (String.mk (label.data.take maxLength)) ++ ("...")

theorem jsTrimList_length_le (l : List Char) :
    (jsTrimList l).length ≤ l.length := by
  unfold jsTrimList
  rw [List.length_reverse]
  calc ((l.dropWhile isJsWhitespace).reverse.dropWhile isJsWhitespace).length
      ≤ (l.dropWhile isJsWhitespace).reverse.length :=
        (List.dropWhile_sublist _).length_le
    _ = (l.dropWhile isJsWhitespace).length := List.length_reverse _
    _ ≤ l.length := (List.dropWhile_sublist _).length_le

/-- Counterexample to C9 as stated: on a label with a LEADING space and more
than 20 characters, the code trims the leading space as well, so the result
differs from "the first 20 characters, trailing whitespace trimmed, followed
by the ellipsis", which here would be " abcdefghijklmnopqrs...". -/
theorem truncateLabel_leading_space_counterexample :
    truncateLabel (" abcdefghijklmnopqrstu") 20 = ("abcdefghijklmnopqrs...") ∧
    ((truncateLabel (" abcdefghijklmnopqrstu") 20)
        == (" abcdefghijklmnopqrs...")) = false := by
  constructor
  · decide
  · decide

/-- C9 (amended): labels of length at most 20 are returned unchanged; longer
labels are cut to their first 20 characters with LEADING AND trailing
whitespace trimmed, followed by the ellipsis (hence at most 23 characters in
the result). -/
theorem truncateLabel_spec (label : String) :
    (label.data.length ≤ 20 → truncateLabel label 20 = label) ∧
    (20 < label.data.length →
      truncateLabel label 20 =
        jsTrim (String.mk (label.data.take 20)) ++ ("...") ∧
      (truncateLabel label 20).data.length ≤ 23) := by
  constructor
  · intro h
    unfold truncateLabel
    rw [if_pos h]
  · intro h
    have hne : ¬ label.data.length ≤ 20 := by omega
    have heq : truncateLabel label 20 =
        jsTrim (String.mk (label.data.take 20)) ++ ("...") := by
      unfold truncateLabel
      rw [if_neg hne]
    refine ⟨heq, ?_⟩
    rw [heq]
    have h1 : (jsTrim (String.mk (label.data.take 20))).data.length ≤ 20 := by
      have h2 := jsTrimList_length_le (label.data.take 20)
      have h3 : (label.data.take 20).length ≤ 20 := by
        simp [List.length_take]
      exact le_trans h2 h3
    have hd : (jsTrim (String.mk (label.data.take 20)) ++ ("...")).data =
        (jsTrim (String.mk (label.data.take 20))).data ++ ("...").data := by
      rfl
    rw [hd, List.length_append]
    have : (("...") : String).data.length = 3 := by decide
    omega

/-! ## Exceptions (as far as the code inspects them) -/

/-- A JavaScript exception value: a `DOMException` carries the `name` the
catch clauses test; any other `Error` carries its message. -/
inductive JsError where
  | domException (name : String)
  | jsError (message : String)
deriving DecidableEq

/-! ## Response adapter (`generateSuggestions` in `gemini.service.ts`) -/

/-- A parsed JSON value, the possible results of `JSON.parse`. -/
inductive Json where
  | null
  | bool (b : Bool)
  | num (q : ℚ)
  | str (s : String)
  | arr (items : List Json)
  | obj (fields : List (String × Json))

/-- Field lookup on a parsed JSON value: what reading `parsed.suggestions`
observes (`none` models JavaScript `undefined`). -/
def jsonField (j : Json) (name : String) : Option Json :=
  match j with
  | Json.obj fields => (fields.find? (fun f => f.1 == name)).map
      (fun f => f.2)
  | _ => none

/-- The error message thrown when the API key is missing. -/
def notConfiguredMsg : String :=
  "Gemini API key is not configured. Please set the API_KEY environment variable to use the application."

/-- The generic error message thrown by the catch clause of
`generateSuggestions`. -/
def failedSuggestionsMsg : String :=
  "Failed to get automation suggestions. Please check your API key and try again."

/-- `generateSuggestions` from `gemini.service.ts`.  The external AI call is
passed in as its result (`apiResult`: response text, or the exception it
threw); the platform's `JSON.parse` is passed in as `parseJson` (`none`
models a parse exception).  The source's `try` block covers both the API
call and the parse, so either failure is reported as the generic message;
a successfully parsed value is returned AS-IS by the unchecked cast
`parsedResponse as AutomationResponse` — no field of it is inspected. -/
def generateSuggestions (isConfigured : Bool)
    (apiResult : Except JsError String)
    (parseJson : String → Option Json) : Except String Json :=
  if isConfigured then
    match apiResult with
    | Except.error _ => Except.error failedSuggestionsMsg
    | Except.ok text =>
      match parseJson (jsTrim text) with
      | none => Except.error failedSuggestionsMsg
      | some parsed => Except.ok parsed
  else Except.error notConfiguredMsg

/-- A `JSON.parse` behaviour under which the response text parses to the
empty JSON object (as the real `JSON.parse` does on the text consisting of
an opening and a closing brace). -/
def parseAsEmptyObject : String → Option Json :=
  fun _ => some (Json.obj [])

/-- Counterexample to C5 as stated: when the response text parses but the
`suggestions` field is absent, the adapter does NOT signal a failure — the
unchecked cast returns the malformed object to the caller as a success. -/
theorem generateSuggestions_missing_field_counterexample :
    parseAsEmptyObject (jsTrim ("{}")) = some (Json.obj []) ∧
    jsonField (Json.obj []) ("suggestions") = none ∧
    generateSuggestions true (Except.ok ("{}")) parseAsEmptyObject =
      Except.ok (Json.obj []) ∧
    (generateSuggestions true (Except.ok ("{}"))
        parseAsEmptyObject).isOk = true := by
  exact ⟨rfl, rfl, rfl, rfl⟩

/-- C5 (amended): the adapter reports the generic
"failed to get suggestions" error whenever the response text fails to parse
as JSON (and whenever the API call itself throws), and in those cases no
suggestion value is returned; but when the text parses, the parsed value is
returned unchanged even if the `suggestions` field is absent. -/
theorem generateSuggestions_spec (parseJson : String → Option Json)
    (text : String) :
    (parseJson (jsTrim text) = none →
      generateSuggestions true (Except.ok text) parseJson =
        Except.error failedSuggestionsMsg) ∧
    (∀ j, parseJson (jsTrim text) = some j →
      generateSuggestions true (Except.ok text) parseJson = Except.ok j) ∧
    (∀ e, generateSuggestions true (Except.error e) parseJson =
      Except.error failedSuggestionsMsg) ∧
    (∀ r, generateSuggestions false r parseJson =
      Except.error notConfiguredMsg) := by
  refine ⟨?_, ?_, ?_, ?_⟩
  · intro h
    simp [generateSuggestions, h]
  · intro j h
    simp [generateSuggestions, h]
  · intro e
    rfl
  · intro r
    rfl

/-! ## DirectorySummarizer
(`generateDirectorySummary`, its inner `traverse`, and
`pickAndSummarizeDirectory` in `app.component.ts`) -/

/-- A node of the picked directory tree, as the File System Access API
handles expose it: kind, name, children for directories, and for files the
`File` object's size together with the text `file.text()` yields
(`none` models a read that throws; the source catches such failures
per file and continues). -/
inductive FsNode where
  | file (name : String) (size : Nat) (content : Option String)
  | dir (name : String) (children : List FsNode)

/-- `handle.name`. -/
def nodeName : FsNode → String
  | FsNode.file n _ _ => n
  | FsNode.dir n _ => n

/-- JavaScript `String.prototype.repeat`. -/
def jsRepeat (s : String) (n : Nat) : String :=
  String.join (List.replicate n s)

/-- The fixed `IGNORE_DIRS` set of `generateDirectorySummary`. -/
def IGNORE_DIRS : List String :=
  [("node_modules"), ("dist"), (".git"), ("target"), ("build"),
   ("__pycache__")]

/-- The accumulators of the source's `traverse` closure — the `fileTree`
lines and the `importantFiles` entries — plus `reads`, an observational log
of the paths whose content the code reads through `file.text()` (used to
state that binary-extension files are never read; it is instrumentation,
not a value of the source). -/
structure TravResult where
  tree : List String
  keyFiles : List (String × String)
  reads : List String
deriving DecidableEq

mutual

/-- The inner `traverse` of `generateDirectorySummary`.  Mirrors the source
line by line: return (nothing emitted) past `maxDepth`; push the indented
icon line; for directories stop at an ignored name, else recurse into the
children with the child's name appended to the path; for files decide
key-file status by extension suffix or exact name, list binary-document
extensions without reading, and record `{path ++ "/" ++ name, content}` for
a readable key file under 100KB.  Note the source appends `handle.name` to
a `path` that already ends in `handle.name`. -/
def traverse (kf : List String) (ce : Bool) (maxDepth : Nat) :
    FsNode → String → Nat → TravResult
  | FsNode.dir nm children, path, depth =>
    if maxDepth < depth then ⟨[], [], []⟩
    else
      let line := jsRepeat ("  ") depth ++ ("📁") ++ (" ") ++ nm
      if IGNORE_DIRS.contains nm then ⟨[line], [], []⟩
      else
        let r := traverseList kf ce maxDepth children path (depth + 1)
        ⟨line :: r.tree, r.keyFiles, r.reads⟩
  | FsNode.file nm size content, path, depth =>
    if maxDepth < depth then ⟨[], [], []⟩
    else
      let line := jsRepeat ("  ") depth ++ ("📄") ++ (" ") ++ nm
      let isKeyFile := if ce then kf.any (fun e => jsEndsWith nm e)
        else kf.contains nm
      if isKeyFile then
        if jsEndsWith nm (".pdf") || jsEndsWith nm (".epub") then
          ⟨[line], [], []⟩
        else if size < 100 * 1024 then
          match content with
          | some c => ⟨[line], [(path ++ ("/") ++ nm, c)],
              [path ++ ("/") ++ nm]⟩
          | none => ⟨[line], [], [path ++ ("/") ++ nm]⟩
        else ⟨[line], [], []⟩
      else ⟨[line], [], []⟩

/-- The `for await` loop over `handle.values()`: each entry is traversed
with the entry's name appended to the parent's path, in listing order. -/
def traverseList (kf : List String) (ce : Bool) (maxDepth : Nat) :
    List FsNode → String → Nat → TravResult
  | [], _, _ => ⟨[], [], []⟩
  | e :: rest, path, depth =>
    let r := traverse kf ce maxDepth e (path ++ ("/") ++ nodeName e) depth
    let r2 := traverseList kf ce maxDepth rest path depth
    ⟨r.tree ++ r2.tree, r.keyFiles ++ r2.keyFiles, r.reads ++ r2.reads⟩

end

/-- The key-file section blocks of the summary. -/
def keyFilesBlock (files : List (String × String)) : String :=
  String.join (files.map (fun f =>
    ("### FILE: ") ++ f.1 ++ ("\n```\n") ++ f.2 ++ ("\n```\n\n")))

/-- `generateDirectorySummary` from `app.component.ts`: the summary starts
with the header, the structure section is appended, and — when key files
were captured — the key-file contents section is appended. -/
def generateDirectorySummary (root : FsNode) (kf : List String) (ce : Bool)
    (maxDepth : Nat) : String :=
  let r := traverse kf ce maxDepth root (nodeName root) 0
  ("Directory Root: ") ++ nodeName root ++ ("\n\n") ++
    ("Directory Structure:\n") ++ String.intercalate ("\n") r.tree ++
    ("\n\n") ++
    (if 0 < r.keyFiles.length then
      ("--- Key File Contents ---\n\n") ++ keyFilesBlock r.keyFiles
    else (""))

/-- The error thrown when the browser lacks `showDirectoryPicker` (thrown
before the `try` block, so it always propagates). -/
def unsupportedBrowserMsg : String :=
  "Your browser does not support scanning local folders. Please use a modern browser like Chrome or Edge."

/-- The error thrown on a blank summary (inside the `try` block; it is not
an AbortError, so the catch clause rethrows it). -/
def emptyDirectoryMsg : String :=
  "The selected directory appears to be empty or could not be read."

/-- `pickAndSummarizeDirectory` from `app.component.ts`.  The picker
collaborator is passed in as its outcome (`pickerResult`): the handle it
returned, or the exception it threw.  The catch clause turns a
`DOMException` named AbortError into a `null` return and rethrows
everything else; `maxDepth` is left at its default 3. -/
def pickAndSummarizeDirectory (hasPicker : Bool)
    (pickerResult : Except JsError FsNode) (keyFileSet : List String)
    (checkExtension : Bool) : Except JsError (Option String) :=
  if hasPicker then
    match pickerResult with
    | Except.error err =>
      if err = JsError.domException ("AbortError") then Except.ok none
      else Except.error err
    | Except.ok directoryHandle =>
      let summary := generateDirectorySummary directoryHandle keyFileSet
        checkExtension 3
      if jsTrim summary = ("") then
        Except.error (JsError.jsError emptyDirectoryMsg)
      else Except.ok (some summary)
  else Except.error (JsError.jsError unsupportedBrowserMsg)

/-- The C1 scenario: a root directory `root` holding `notes.md` (50 bytes,
content "hello") and a subtree `node_modules/pkg/index.js`. -/
def c1Root : FsNode :=
  FsNode.dir ("root")
    [FsNode.file ("notes.md") 50 (some ("hello")),
     FsNode.dir ("node_modules")
       [FsNode.dir ("pkg") [FsNode.file ("index.js") 30 (some ("x"))]]]

/-- C1, evaluated on the scenario with a ".md" extension matcher and
maxDepth 3: the key-files section has exactly one entry with content
"hello" and the tree has a `node_modules` line with nothing beneath it —
but the entry's recorded path is "root/notes.md/notes.md", not the
"root/notes.md" the claim states (the source appends `handle.name` to a
path that already ends in it). -/
theorem c1_summary_eval :
    (traverse [(".md")] true 3 c1Root ("root") 0).keyFiles =
      [(("root/notes.md/notes.md"), ("hello"))] ∧
    (traverse [(".md")] true 3 c1Root ("root") 0).tree =
      [("📁 root"), ("  📄 notes.md"), ("  📁 node_modules")] ∧
    ((traverse [(".md")] true 3 c1Root ("root") 0).keyFiles.contains
      (("root/notes.md"), ("hello"))) = false := by
  refine ⟨by decide, by decide, by decide⟩

/-- C3: a node past `maxDepth` contributes no tree line at all (so nothing
is emitted at depth greater than maxDepth), and a directory whose name is
in the ignore set contributes exactly its own tree line (so it is listed,
and none of its descendants are). -/
theorem traverse_depth_ignore_invariant (kf : List String) (ce : Bool)
    (maxDepth : Nat) (h : FsNode) (nm path : String)
    (children : List FsNode) (depth : Nat) :
    (maxDepth < depth → traverse kf ce maxDepth h path depth =
      ⟨[], [], []⟩) ∧
    (IGNORE_DIRS.contains nm = true → depth ≤ maxDepth →
      traverse kf ce maxDepth (FsNode.dir nm children) path depth =
        ⟨[jsRepeat ("  ") depth ++ ("📁") ++ (" ") ++ nm], [], []⟩) := by
  constructor
  · intro hd
    cases h with
    | dir n c =>
      rw [traverse.eq_def]
      simp [hd]
    | file n s c =>
      rw [traverse.eq_def]
      simp [hd]
  · intro hig hle
    rw [traverse.eq_def]
    simp [Nat.not_lt.mpr hle, hig]
    intro hn
    simp at hig
    exact absurd hig hn

/-- C7: a file visited at an admissible depth always gets its tree line;
if its size is at least 100KB (102400 bytes) no key-file entry is recorded
for it; and if its name ends in ".pdf" or ".epub" no key-file entry is
recorded and its content is never read, regardless of size. -/
theorem traverse_file_read_caps (kf : List String) (ce : Bool)
    (maxDepth : Nat) (nm path : String) (size : Nat)
    (content : Option String) (depth : Nat) (hle : depth ≤ maxDepth) :
    (traverse kf ce maxDepth (FsNode.file nm size content) path depth).tree =
      [jsRepeat ("  ") depth ++ ("📄") ++ (" ") ++ nm] ∧
    (100 * 1024 ≤ size →
      (traverse kf ce maxDepth (FsNode.file nm size content) path
        depth).keyFiles = []) ∧
    (jsEndsWith nm (".pdf") = true ∨ jsEndsWith nm (".epub") = true →
      (traverse kf ce maxDepth (FsNode.file nm size content) path
        depth).keyFiles = [] ∧
      (traverse kf ce maxDepth (FsNode.file nm size content) path
        depth).reads = []) := by
  refine ⟨?_, ?_, ?_⟩
  · rw [traverse.eq_def]
    dsimp only
    rw [if_neg (Nat.not_lt.mpr hle)]
    cases content <;> split_ifs <;> rfl
  · intro hsize
    rw [traverse.eq_def]
    dsimp only
    rw [if_neg (Nat.not_lt.mpr hle)]
    cases content <;> split_ifs <;> first | rfl | omega
  · intro hb
    have hbor : (jsEndsWith nm (".pdf") || jsEndsWith nm (".epub")) = true := by
      rcases hb with h | h <;> simp [h]
    rw [traverse.eq_def]
    dsimp only
    rw [if_neg (Nat.not_lt.mpr hle)]
    cases content <;> split_ifs <;> simp_all

/-- Witness for C7: a 200KB markdown key file is listed but yields no
key-file entry; a small pdf key file is neither recorded nor read. -/
theorem traverse_file_read_caps_witness :
    (traverse [(".pdf"), (".md")] true 3
      (FsNode.file ("big.md") 204800 (some ("x"))) ("root/big.md")
      1).keyFiles = [] ∧
    (traverse [(".pdf"), (".md")] true 3
      (FsNode.file ("big.md") 204800 (some ("x"))) ("root/big.md")
      1).tree = [jsRepeat ("  ") 1 ++ ("📄") ++ (" ") ++ ("big.md")] ∧
    (traverse [(".pdf"), (".md")] true 3
      (FsNode.file ("doc.pdf") 10 (some ("y"))) ("root/doc.pdf")
      1).reads = [] := by
  refine ⟨?_, ?_, ?_⟩
  · exact (traverse_file_read_caps [(".pdf"), (".md")] true 3 ("big.md")
      ("root/big.md") 204800 (some ("x")) 1 (by omega)).2.1 (by omega)
  · exact (traverse_file_read_caps [(".pdf"), (".md")] true 3 ("big.md")
      ("root/big.md") 204800 (some ("x")) 1 (by omega)).1
  · exact ((traverse_file_read_caps [(".pdf"), (".md")] true 3 ("doc.pdf")
      ("root/doc.pdf") 10 (some ("y")) 1 (by omega)).2.2
      (Or.inl (by decide))).2

/-- C8: dismissing the directory picker (an AbortError DOMException from
the picker) makes `pickAndSummarizeDirectory` return null with no summary
and no error; any other exception from picking propagates to the caller
unchanged; and the unsupported-browser error (thrown before the try block)
propagates as well. -/
theorem pickAndSummarizeDirectory_cancel (kf : List String) (ce : Bool)
    (e : JsError) (he : e ≠ JsError.domException ("AbortError")) :
    pickAndSummarizeDirectory true
      (Except.error (JsError.domException ("AbortError"))) kf ce =
      Except.ok none ∧
    pickAndSummarizeDirectory true (Except.error e) kf ce =
      Except.error e ∧
    pickAndSummarizeDirectory false
      (Except.error (JsError.domException ("AbortError"))) kf ce =
      Except.error (JsError.jsError unsupportedBrowserMsg) := by
  refine ⟨?_, ?_, rfl⟩
  · show (if (JsError.domException ("AbortError")) =
        JsError.domException ("AbortError") then
        (Except.ok none : Except JsError (Option String))
      else Except.error (JsError.domException ("AbortError"))) =
      Except.ok none
    rw [if_pos rfl]
  · show (if e = JsError.domException ("AbortError") then
        (Except.ok none : Except JsError (Option String))
      else Except.error e) = Except.error e
    rw [if_neg he]

/-- Witness for C8: the AbortError case returns null; a plain error is
rethrown unchanged. -/
theorem pickAndSummarizeDirectory_cancel_witness :
    pickAndSummarizeDirectory true
      (Except.error (JsError.domException ("AbortError"))) [] false =
      Except.ok none ∧
    pickAndSummarizeDirectory true
      (Except.error (JsError.jsError ("boom"))) [] false =
      Except.error (JsError.jsError ("boom")) :=
  ⟨(pickAndSummarizeDirectory_cancel [] false (JsError.jsError ("boom"))
      (by decide)).1,
   (pickAndSummarizeDirectory_cancel [] false (JsError.jsError ("boom"))
      (by decide)).2.1⟩

theorem stringDataAppend (a b : String) :
    (a ++ b).data = a.data ++ b.data := rfl

/-- The summary, regrouped to expose its leading literal. -/
theorem generateDirectorySummary_shape (root : FsNode) (kf : List String)
    (ce : Bool) (maxDepth : Nat) :
    generateDirectorySummary root kf ce maxDepth =
      ("Directory Root: ") ++ (nodeName root ++ (("\n\n") ++
        (("Directory Structure:\n") ++
          (String.intercalate ("\n")
              (traverse kf ce maxDepth root (nodeName root) 0).tree ++
            (("\n\n") ++
              (if 0 < (traverse kf ce maxDepth root (nodeName root)
                  0).keyFiles.length then
                ("--- Key File Contents ---\n\n") ++
                  keyFilesBlock (traverse kf ce maxDepth root
                    (nodeName root) 0).keyFiles
              else (""))))))) := by
  unfold generateDirectorySummary
  simp only [String.append_assoc]

theorem jsTrim_length_pos_of_head (s : String) (c : Char) (t : List Char)
    (hdata : s.data = c :: t) (hc : isJsWhitespace c = false) :
    0 < (jsTrim s).data.length := by
  have h1 : (jsTrim s).data = jsTrimList s.data := rfl
  rw [h1, hdata]
  unfold jsTrimList
  rw [List.dropWhile_cons, if_neg (by simp [hc])]
  rw [List.length_reverse]
  rw [Nat.pos_iff_ne_zero, Ne, List.length_eq_zero]
  intro hnil
  have hcmem : c ∈ (c :: t).reverse := by
    rw [List.mem_reverse]
    exact List.mem_cons_self c t
  have := (List.dropWhile_eq_nil_iff.mp hnil) c hcmem
  rw [hc] at this
  exact Bool.noConfusion this

/-- C10: the summary of a picked directory is never blank — it starts with
the "Directory Root: " header, the root's own tree line is always emitted
(the root is visited at depth 0 and 0 never exceeds maxDepth), the summary
still has positive length after `trim`, and consequently
`pickAndSummarizeDirectory` never takes its "empty or could not be read"
error branch: on a successfully picked handle it returns the summary. -/
theorem generateDirectorySummary_nonblank (name : String)
    (children : List FsNode) (kf : List String) (ce : Bool)
    (maxDepth : Nat) :
    List.IsPrefix (("Directory Root: ") ++ name).data
      (generateDirectorySummary (FsNode.dir name children) kf ce
        maxDepth).data ∧
    (∃ rest,
      (traverse kf ce maxDepth (FsNode.dir name children) name 0).tree =
        (jsRepeat ("  ") 0 ++ ("📁") ++ (" ") ++ name) :: rest) ∧
    0 < ((jsTrim (generateDirectorySummary (FsNode.dir name children) kf ce
      maxDepth)).data).length ∧
    pickAndSummarizeDirectory true
        (Except.ok (FsNode.dir name children)) kf ce =
      Except.ok (some (generateDirectorySummary (FsNode.dir name children)
        kf ce 3)) := by
  have hhead : ∀ md : Nat, ∃ u : List Char,
      (generateDirectorySummary (FsNode.dir name children) kf ce md).data =
        'D' :: u := by
    intro md
    rw [generateDirectorySummary_shape]
    rw [stringDataAppend]
    have hDR : ("Directory Root: ").data =
        'D' :: ("irectory Root: ").data := by decide
    rw [hDR, List.cons_append]
    exact ⟨_, rfl⟩
  have htrim : ∀ md : Nat,
      0 < ((jsTrim (generateDirectorySummary (FsNode.dir name children) kf
        ce md)).data).length := by
    intro md
    obtain ⟨u, hu⟩ := hhead md
    exact jsTrim_length_pos_of_head _ 'D' u hu (by decide)
  refine ⟨?_, ?_, htrim maxDepth, ?_⟩
  · have h := List.prefix_append ((("Directory Root: ") ++ name)).data
      ((("\n\n") ++ (("Directory Structure:\n") ++
        (String.intercalate ("\n")
            (traverse kf ce maxDepth (FsNode.dir name children) name
              0).tree ++
          (("\n\n") ++
            (if 0 < (traverse kf ce maxDepth (FsNode.dir name children)
                name 0).keyFiles.length then
              ("--- Key File Contents ---\n\n") ++
                keyFilesBlock (traverse kf ce maxDepth
                  (FsNode.dir name children) name 0).keyFiles
            else ("")))))).data)
    rw [← stringDataAppend] at h
    rw [generateDirectorySummary_shape]
    dsimp only [nodeName]
    rw [← String.append_assoc]
    exact h
  · rw [traverse.eq_def]
    have h0 : ¬ maxDepth < 0 := Nat.not_lt.mpr (Nat.zero_le maxDepth)
    dsimp only [nodeName]
    rw [if_neg h0]
    by_cases hig : IGNORE_DIRS.contains name
    · rw [if_pos hig]
      exact ⟨[], rfl⟩
    · rw [if_neg hig]
      exact ⟨_, rfl⟩
  · have hne : ¬ jsTrim (generateDirectorySummary (FsNode.dir name
        children) kf ce 3) = ("") := by
      intro heq
      have h3 := htrim 3
      rw [heq] at h3
      simp at h3
    unfold pickAndSummarizeDirectory
    rw [if_pos rfl]
    dsimp only
    rw [if_neg hne]

end VibeAutomation
